import Mathlib

/-!
Verification development for the meeting-bot media pipeline.

Shallow embedding of the core components of the repository:
join retry state machine (`services/meet-bot/src/bot.py`), the recorder
(`recorder.py`), the caption scraper (`caption_scraper.py`), speaker
attribution (`transcriber.py` and `services/transcription-worker/src/main.py`),
the audio chunker (both transcription call sites), and the worker entry
point (`services/meet-bot/src/main.py`).
-/

namespace MeetBot

/-- Retry-related fields of `services/meet-bot/src/config.py` (`Config`).
Defaults match the `os.getenv` defaults in the source. -/
structure Config where
  MAX_JOIN_RETRIES : Nat := 3
  INITIAL_RETRY_DELAY : Nat := 5
  MAX_RETRY_DELAY : Nat := 30
  JOIN_TIMEOUT : Nat := 120

/-! ## Join state machine (`bot.py`, `MeetBot.join_meeting` and helpers) -/

/-- What the admission-wait polling loop (`_wait_for_meeting_join`)
observes during one attempt: the page eventually shows in-meeting markers,
shows a permanent failure indicator (access denied / meeting ended, the
`failure_indicators` list), or `JOIN_TIMEOUT` seconds elapse. -/
inductive WaitEvent
  | admittedEv
  | permanentMarkerEv
  | timeoutEv
deriving DecidableEq, Repr

/-- Exceptions that can escape `_attempt_join_meeting`: Python
`TimeoutError` (raised at the end of `_wait_for_meeting_join`) or a plain
`Exception` (in particular the one raised as
`Exception("Join failed: <selector>")` when the wait loop sees a
permanent-failure indicator). -/
inductive AttemptExn
  | timeoutError
  | genericError
deriving DecidableEq, Repr

/-- Embedding of `MeetBot._wait_for_meeting_join` (bot.py lines 810-949):
returns normally once an in-meeting indicator is seen, raises a plain
`Exception` when a `failure_indicators` selector matches
(`raise Exception(f"Join failed: {failure_sel}")`), and raises
`TimeoutError` when `JOIN_TIMEOUT` elapses. -/
def wait_for_meeting_join : WaitEvent → Except AttemptExn Unit
  | WaitEvent.admittedEv => Except.ok ()
  | WaitEvent.permanentMarkerEv => Except.error AttemptExn.genericError
  | WaitEvent.timeoutEv => Except.error AttemptExn.timeoutError

/-- What a single attempt's page interaction amounts to in
`_attempt_join_meeting` (bot.py lines 450-557):
either the initial checks (`access_denied_selectors`,
`signin_required_selectors`) find a permanent marker, or an exception is
raised before the admission wait, or control reaches
`_wait_for_meeting_join` with some `WaitEvent`. -/
inductive AttemptEnv
  | permOnLoad
  | earlierError
  | wait (w : WaitEvent)
deriving DecidableEq, Repr

/-- Embedding of `MeetBot._attempt_join_meeting`: per its docstring it
"Returns True on success, False on permanent failure, raises on retryable
error".  The permanent markers found by the initial page checks return
`False`; an exception raised anywhere (including inside
`_wait_for_meeting_join`) propagates. -/
def attempt_join_meeting : AttemptEnv → Except AttemptExn Bool
  | AttemptEnv.permOnLoad => Except.ok false
  | AttemptEnv.earlierError => Except.error AttemptExn.genericError
  | AttemptEnv.wait w => (wait_for_meeting_join w).map (fun _ => true)

/-- Result of a whole `join_meeting` run. -/
inductive JoinOutcome
  | joined
  | permanentFailure
  | exhausted
deriving DecidableEq, Repr

/-- Observable trace of a `join_meeting` run: its boolean-ish outcome, how
many attempts were started, and the backoff delays slept between
attempts, in order. -/
structure JoinRun where
  outcome : JoinOutcome
  attemptsMade : Nat
  delays : List Nat
deriving DecidableEq, Repr

/-- The backoff delay computed in `join_meeting` (bot.py lines 428-432)
after failed attempt `k`:
`min(config.INITIAL_RETRY_DELAY * (2 ** (attempt - 1)), config.MAX_RETRY_DELAY)`. -/
def retryDelay (cfg : Config) (k : Nat) : Nat :=
  min (cfg.INITIAL_RETRY_DELAY * 2 ^ (k - 1)) cfg.MAX_RETRY_DELAY

/-- The body of the `for attempt in range(1, MAX_JOIN_RETRIES + 1)` loop of
`MeetBot.join_meeting` (bot.py lines 398-448), processing the remaining
attempts; `attempt` is the 1-based index of the first attempt in `envs`.
`if result: return True`; `if result is False: ... return False`;
`except TimeoutError` / `except Exception`: fall through to the backoff
sleep and reload when `attempt < MAX_JOIN_RETRIES` (encoded here as
`rest` nonempty, the run being given one environment per loop iteration). -/
def joinAttemptStep (cfg : Config) (attempt : Nat) (res : Except AttemptExn Bool)
    (rest : List AttemptEnv) (cont : JoinRun) : JoinRun :=
  match res with
  | Except.ok true =>
      { outcome := JoinOutcome.joined, attemptsMade := attempt, delays := [] }
  | Except.ok false =>
      { outcome := JoinOutcome.permanentFailure, attemptsMade := attempt, delays := [] }
  | Except.error _ =>
    match rest with
    | [] => { outcome := JoinOutcome.exhausted, attemptsMade := attempt, delays := [] }
    | _ :: _ => { cont with delays := retryDelay cfg attempt :: cont.delays }

def joinMeetingGo (cfg : Config) : Nat → List AttemptEnv → JoinRun
  | attempt, [] => { outcome := JoinOutcome.exhausted, attemptsMade := attempt - 1, delays := [] }
  | attempt, e :: rest =>
      joinAttemptStep cfg attempt (attempt_join_meeting e) rest
        (joinMeetingGo cfg (attempt + 1) rest)

/-- Embedding of `MeetBot.join_meeting`: the loop runs over attempts
`1 .. MAX_JOIN_RETRIES`, one `AttemptEnv` per attempt. -/
def join_meeting (cfg : Config) (envs : List AttemptEnv) : JoinRun :=
  joinMeetingGo cfg 1 (envs.take cfg.MAX_JOIN_RETRIES)

/-! ## Recorder (`recorder.py`, class `Recorder`) -/

/-- The `Recorder` fields that its control flow reads
(`recorder.py` lines 18-26): whether `self.process` is set (the source
never resets it to `None`), `self.recording_path`, `self.is_recording`
and `self.start_time`. -/
structure RecorderState where
  hasProcess : Bool
  recording_path : Option String
  is_recording : Bool
  start_time : Option Nat
deriving DecidableEq, Repr

/-- The filesystem facts `Recorder.stop` consults: the size of a file if
it exists (`Path.exists` / `stat().st_size`), and the most recently
modified `*.mp4` in the recording directory together with its size (the
`sorted(recording_dir.glob("*.mp4"), key=mtime, reverse=True)` fallback
scan). -/
structure RecFs where
  size : String → Option Nat
  latestMp4 : Option (String × Nat)

/-- Embedding of `Recorder.stop` (recorder.py lines 144-250) as a state
transformer returning the new state and the returned path (`None` is
`none`).
The first branch (`if not self.is_recording or not self.process`) leaves
the state untouched and returns the expected file only if it exists
non-empty.  Otherwise the subprocess is shut down, `is_recording` is set
to `False`, and the output is verified: the expected path if non-empty,
else the directory-scan fallback (whose result is returned without being
stored in `recording_path`), else `None`. -/
def Recorder.stop (s : RecorderState) (fs : RecFs) : RecorderState × Option String :=
  if s.is_recording = false ∨ s.hasProcess = false then
    match s.recording_path with
    | some p =>
      match fs.size p with
      | some n => if 0 < n then (s, some p) else (s, none)
      | none => (s, none)
    | none => (s, none)
  else
    let s' : RecorderState := { s with is_recording := false }
    match s.recording_path with
    | some p =>
      match fs.size p with
      | some n => if 0 < n then (s', some p) else (s', none)
      | none =>
        match fs.latestMp4 with
        | some (q, m) => if 0 < m then (s', some q) else (s', none)
        | none => (s', none)
    | none => (s', none)

/-- Result of `Recorder.start` (recorder.py lines 77-123): the new state,
the outcome (`Except.error` models the raised `RuntimeError`, `Except.ok`
the returned path), and whether an FFmpeg subprocess was spawned. -/
structure StartResult where
  state : RecorderState
  result : Except String (Option String)
  spawned : Bool
deriving Repr

/-- Embedding of `Recorder.start`: if `self.is_recording` it only logs
and returns `self.recording_path`; otherwise it computes a fresh output
path, spawns FFmpeg, sets `is_recording`/`start_time`, and raises if the
subprocess died during the one-second grace period (`spawnAlive = false`,
in which case `is_recording` is reset to `False` before the raise). -/
def Recorder.start (s : RecorderState) (newPath : String) (now : Nat)
    (spawnAlive : Bool) : StartResult :=
  if s.is_recording then
    { state := s, result := Except.ok s.recording_path, spawned := false }
  else if spawnAlive then
    { state := { hasProcess := true, recording_path := some newPath,
                 is_recording := true, start_time := some now },
      result := Except.ok (some newPath), spawned := true }
  else
    { state := { hasProcess := true, recording_path := some newPath,
                 is_recording := false, start_time := some now },
      result := Except.error "FFmpeg failed to start", spawned := true }

/-! ## Caption scraper (`caption_scraper.py`, class `CaptionScraper`) -/

/-- `CaptionSegment` dataclass (caption_scraper.py lines 20-34).
Millisecond timestamps are Python `int`s, embedded as `Int`. -/
structure CaptionSegment where
  speaker : String
  text : String
  start_ms : Int
  end_ms : Int
deriving DecidableEq, Repr

/-- The scraper state touched by `handle_caption`
(caption_scraper.py lines 291-343): the list of closed segments and the
`_active_segments` dict (`speaker -> current segment`), embedded as an
insertion-ordered association list. -/
structure ScraperState where
  segments : List CaptionSegment
  active : List (String × CaptionSegment)
deriving DecidableEq, Repr

/-- Lookup in the `_active_segments` dict. -/
def lookupActive (k : String) : List (String × CaptionSegment) → Option CaptionSegment
  | [] => none
  | (k', v) :: rest => if k' = k then some v else lookupActive k rest

/-- `self._active_segments[speaker] = seg`: replace the entry in place,
appending when the key is new (Python dict insertion order). -/
def setActive (k : String) (v : CaptionSegment) :
    List (String × CaptionSegment) → List (String × CaptionSegment)
  | [] => [(k, v)]
  | (k', v') :: rest => if k' = k then (k, v) :: rest else (k', v') :: setActive k v rest

/-- Python's substring containment `pat in s`, on character sequences. -/
def strContains (s pat : String) : Bool :=
  (List.range (s.toList.length + 1)).any (fun i => pat.toList.isPrefixOf (s.toList.drop i))

/-- The `if 'Bot' in speaker or 'Meeting-Assistant' in speaker` filter of
`handle_caption`. -/
def isBotSpeaker (speaker : String) : Bool :=
  strContains speaker "Bot" || strContains speaker "Meeting-Assistant"

/-- Embedding of the `handle_caption` callback installed by
`CaptionScraper.start_scraping` (caption_scraper.py lines 300-336):
drop the bot's own captions; if the speaker has an open segment and the
new text `startswith` the open text or is longer, extend it (replace the
text, move `end_ms` to now); otherwise close the open segment and open a
new one `[elapsed, elapsed + 1000]`; a speaker with no open segment opens
one. -/
def handle_caption (st : ScraperState) (speaker text : String) (elapsed : Int) :
    ScraperState :=
  if isBotSpeaker speaker then st
  else
    match lookupActive speaker st.active with
    | some activeSeg =>
      if activeSeg.text.toList.isPrefixOf text.toList ∨ activeSeg.text.length < text.length then
        let grown : CaptionSegment := { activeSeg with text := text, end_ms := elapsed }
        { st with active := setActive speaker grown st.active }
      else
        let fresh : CaptionSegment :=
          { speaker := speaker, text := text,
            start_ms := elapsed, end_ms := elapsed + 1000 }
        { segments := st.segments ++ [activeSeg],
          active := setActive speaker fresh st.active }
    | none =>
      let fresh : CaptionSegment :=
        { speaker := speaker, text := text,
          start_ms := elapsed, end_ms := elapsed + 1000 }
      { st with active := st.active ++ [(speaker, fresh)] }

/-- `CaptionScraper.get_segments` (caption_scraper.py lines 359-364):
closed segments followed by the still-open ones. -/
def get_segments (st : ScraperState) : List CaptionSegment :=
  st.segments ++ st.active.map Prod.snd

/-! ## Speaker attribution

Two call sites carry this logic: the `get_speaker_at_time` closure inside
`Transcriber.transcribe_audio` (meet-bot `transcriber.py` lines 150-182)
and `SpeakerAttributor.get_speaker_at_time` (transcription-worker
`main.py` lines 71-97).  `TIME_TOLERANCE_MS = 5000` in both. -/

/-- The `distance` computed inside the caption loop at both call sites:
`start_ms - T` when `T < start_ms`, else `T - end_ms`. -/
def captionDistance (t : Int) (seg : CaptionSegment) : Int :=
  if t < seg.start_ms then seg.start_ms - t else t - seg.end_ms

/-- How the shared `for seg in captions` loop can end: an early
`return seg.speaker` on a direct hit (`start_ms <= T <= end_ms`), or the
final `best_match` / `best_score` pair (`none` models the initial
`best_match = None` / `best_score = inf`). -/
inductive ScanOutcome
  | hit (speaker : String)
  | best (b : Option (String × Int))
deriving DecidableEq, Repr

/-- The caption loop of the transcriber closure (transcriber.py lines
160-174): direct hit returns immediately; otherwise
`distance = start_ms - T` when `T < start_ms`, else `T - end_ms`; the
best match is replaced when `distance < 5000 and distance < best_score`. -/
def transcriberScan (t : Int) : Option (String × Int) → List CaptionSegment → ScanOutcome
  | best, [] => ScanOutcome.best best
  | best, seg :: rest =>
    if seg.start_ms ≤ t ∧ t ≤ seg.end_ms then ScanOutcome.hit seg.speaker
    else
      let distance : Int := captionDistance t seg
      match best with
      | none =>
        if distance < 5000 then transcriberScan t (some (seg.speaker, distance)) rest
        else transcriberScan t none rest
      | some (sp0, b) =>
        if distance < 5000 ∧ distance < b then
          transcriberScan t (some (seg.speaker, distance)) rest
        else transcriberScan t (some (sp0, b)) rest

/-- The caption loop of the worker's `SpeakerAttributor.get_speaker_at_time`
(transcription-worker main.py lines 81-95); textually the same loop as the
transcriber's. -/
def workerScan (t : Int) : Option (String × Int) → List CaptionSegment → ScanOutcome
  | best, [] => ScanOutcome.best best
  | best, seg :: rest =>
    if seg.start_ms ≤ t ∧ t ≤ seg.end_ms then ScanOutcome.hit seg.speaker
    else
      let distance : Int := captionDistance t seg
      match best with
      | none =>
        if distance < 5000 then workerScan t (some (seg.speaker, distance)) rest
        else workerScan t none rest
      | some (sp0, b) =>
        if distance < 5000 ∧ distance < b then
          workerScan t (some (seg.speaker, distance)) rest
        else workerScan t (some (sp0, b)) rest

/-- Python truthiness of `best_match` (`if not best_match:`): `None` or
the empty string count as no match. -/
def falsyMatch : Option String → Bool
  | none => true
  | some s => s = ""


/-- Embedding of the transcriber-side `get_speaker_at_time(timestamp_ms)`
closure: empty caption list returns `None`; a direct hit returns that
speaker; else the best within-tolerance match; if that is falsy, the
fallback `for seg in reversed(caption_segments): if seg.end_ms <=
timestamp_ms + TIME_TOLERANCE_MS: return seg.speaker`; else the (falsy)
`best_match` itself. -/
def transcriber_get_speaker_at_time (captions : List CaptionSegment) (t : Int) :
    Option String :=
  if captions.isEmpty then none
  else
    match transcriberScan t none captions with
    | ScanOutcome.hit s => some s
    | ScanOutcome.best b =>
      let bm : Option String := b.map Prod.fst
      if falsyMatch bm then
        match captions.reverse.find? (fun seg => seg.end_ms ≤ t + 5000) with
        | some seg => some seg.speaker
        | none => bm
      else bm

/-- Embedding of `SpeakerAttributor.get_speaker_at_time` (transcription
worker): empty caption list returns `None`; a direct hit returns that
speaker; otherwise `best_match` is returned as-is — this version has no
most-recent-caption fallback. -/
def attributor_get_speaker_at_time (captions : List CaptionSegment) (t : Int) :
    Option String :=
  if captions.isEmpty then none
  else
    match workerScan t none captions with
    | ScanOutcome.hit s => some s
    | ScanOutcome.best b => b.map Prod.fst

/-- The attribution rule exactly as the claim states it (modelled from the
spec's words, for comparison with the code): direct hit; else the
caption segment minimizing the distance to `T`, accepted when the
distance is `≤ 5000`; else the most recent caption segment whose end is
within the 5000 ms tolerance *before* `T`; else unattributed. -/
def specAttributionRule (captions : List CaptionSegment) (t : Int) : Option String :=
  match captions.find? (fun seg => seg.start_ms ≤ t ∧ t ≤ seg.end_ms) with
  | some seg => some seg.speaker
  | none =>
    let dist : CaptionSegment → Int := fun seg =>
      if t < seg.start_ms then seg.start_ms - t else t - seg.end_ms
    let inTol := captions.filter (fun seg => dist seg ≤ 5000)
    match inTol.find? (fun seg => inTol.all (fun s' => dist seg ≤ dist s')) with
    | some seg => some seg.speaker
    | none =>
      match captions.reverse.find? (fun seg => seg.end_ms ≤ t ∧ t - seg.end_ms ≤ 5000) with
      | some seg => some seg.speaker
      | none => none

/-! ## Audio chunker

`Transcriber.transcribe_large_file` (meet-bot `transcriber.py` lines
56-115) and `TranscriptionWorker.transcribe_large_file`
(transcription-worker `main.py` lines 323-393) share the same chunking
algorithm; the worker variant additionally merges word timings. -/

/-- `MAX_FILE_SIZE_BYTES = 25 * 1024 * 1024`, the per-request ceiling
(both sources). -/
def MAX_FILE_SIZE_BYTES : Nat := 25 * 1024 * 1024

/-- `target_chunk_bytes = 20 * 1024 * 1024` (both sources). -/
def TARGET_CHUNK_BYTES : Nat := 20 * 1024 * 1024

/-- `chunk_duration_ms`: the source computes
`bytes_per_ms = file_size / total_duration_ms` and
`int(target_chunk_bytes / bytes_per_ms)` (Python float division then
truncation, i.e. `target * total / size` rounded down), then applies the
one-minute floor `max(chunk_duration_ms, 60 * 1000)`.  Embedded with
exact natural floor division in place of float arithmetic. -/
def chunkDurationMs (totalDurationMs fileSize : Nat) : Nat :=
  max (TARGET_CHUNK_BYTES * totalDurationMs / fileSize) (60 * 1000)

/-- The `while start < total_duration_ms` window loop (both sources):
`end = min(start + chunk_duration_ms, total_duration_ms)`;
`chunks.append((start, end))`; `start = end`.  The `0 < cd` guard is a
termination artifact only: the computed `chunk_duration_ms` is always
`≥ 60000`. -/
def chunksGo (cd total start : Nat) : List (Nat × Nat) :=
  if _h : 0 < cd ∧ start < total then
    (start, min (start + cd) total) :: chunksGo cd total (min (start + cd) total)
  else []
termination_by total - start
decreasing_by
  simp_wf
  omega

/-- The full chunk list computed by `transcribe_large_file` at either call
site. -/
def chunkWindows (totalDurationMs fileSize : Nat) : List (Nat × Nat) :=
  chunksGo (chunkDurationMs totalDurationMs fileSize) totalDurationMs 0

/-- A Whisper segment (`{start, end, text}` with seconds as floats,
embedded as rationals). -/
structure TSeg where
  start : ℚ
  endTime : ℚ
  text : String
deriving DecidableEq, Repr

/-- One chunk's transcription result as used by the bot-side merge. -/
structure ChunkResult where
  text : String
  segments : List TSeg
deriving DecidableEq, Repr

/-- `segment["start"] += start_ms / 1000; segment["end"] += start_ms / 1000`. -/
def shiftSeg (offsetSec : ℚ) (s : TSeg) : TSeg :=
  { s with start := s.start + offsetSec, endTime := s.endTime + offsetSec }

/-- Embedding of `Transcriber.transcribe_large_file` given an abstract
transcription engine mapping a window to its (window-relative) result:
split into windows, transcribe each, shift each returned segment by the
window start, append in window order, and join the texts with single
spaces. -/
def transcribe_large_file (totalDurationMs fileSize : Nat)
    (engine : Nat × Nat → ChunkResult) : ChunkResult :=
  let chunks := chunkWindows totalDurationMs fileSize
  { text := String.intercalate " " (chunks.map fun c => (engine c).text),
    segments := (chunks.map fun c =>
        (engine c).segments.map (shiftSeg ((c.1 : ℚ) / 1000))).flatten }

/-- One chunk's transcription result as used by the worker-side merge
(which also carries word timings). -/
structure WChunkResult where
  text : String
  segments : List TSeg
  words : List TSeg
deriving DecidableEq, Repr

/-- Embedding of `TranscriptionWorker.transcribe_large_file`: same window
computation and merge as the bot side, with word timings shifted the same
way. -/
def worker_transcribe_large_file (totalDurationMs fileSize : Nat)
    (engine : Nat × Nat → WChunkResult) : WChunkResult :=
  let chunks := chunkWindows totalDurationMs fileSize
  { text := String.intercalate " " (chunks.map fun c => (engine c).text),
    segments := (chunks.map fun c =>
        (engine c).segments.map (shiftSeg ((c.1 : ℚ) / 1000))).flatten,
    words := (chunks.map fun c =>
        (engine c).words.map (shiftSeg ((c.1 : ℚ) / 1000))).flatten }

/-! ## Persistent-store / storage side effects

Abstract trace of the externally visible operations performed by the
worker entry point (meet-bot `main.py`) and the transcription worker
(transcription-worker `main.py`): status writes to the relational store,
object-storage puts/deletes, local temp unlinks, and queue pushes. -/

inductive Op
  | updateMeeting (status : String)
  | insertTranscription (status : String)
  | updateTranscription (status : String)
  | insertSegments (n : Nat)
  | insertRecording
  | storagePut (what : String)
  | storageDelete (what : String)
  | unlinkLocalTemp
  | enqueueTranscription
deriving DecidableEq, Repr

/-- What can vary in a `TranscriptionWorker.process_job` run
(transcription-worker main.py lines 154-306): whether the recordings
lookup finds the row, whether the body of the big `try` block (download,
chunking/engine calls, segment processing) raises, and how many segments
survive quality filtering. -/
structure WorkerJobEnv where
  recordingFound : Bool
  transcriptionRaises : Bool
  segCount : Nat
deriving DecidableEq, Repr

/-- Embedding of `TranscriptionWorker.process_job` as its trace of store
operations: missing recording returns early; otherwise a transcription
row is inserted with status `processing`; on success segments are
inserted (when any survive filtering) and both the transcription and the
meeting are marked `completed`; on any exception the transcription and
the meeting are marked `failed` and the exception is re-raised.  The
`finally` block unlinks the local temp files only — there is no
object-storage delete anywhere in the function. -/
def process_job (env : WorkerJobEnv) : List Op :=
  if env.recordingFound = false then []
  else
    [Op.insertTranscription "processing"] ++
    (if env.transcriptionRaises then
      [Op.updateTranscription "failed", Op.updateMeeting "failed"]
    else
      (if 0 < env.segCount then [Op.insertSegments env.segCount] else []) ++
      [Op.updateTranscription "completed", Op.updateMeeting "completed"]) ++
    [Op.unlinkLocalTemp]

/-- Exit codes of the worker process (meet-bot main.py lines 31-36). -/
def EXIT_SUCCESS : Nat := 0

/-- `EXIT_ERROR = 1` (meet-bot main.py line 32). -/
def EXIT_ERROR : Nat := 1

/-- `EXIT_JOIN_FAILED = 2` (meet-bot main.py line 33). -/
def EXIT_JOIN_FAILED : Nat := 2

/-- `EXIT_TIMEOUT = 3` (meet-bot main.py line 34). -/
def EXIT_TIMEOUT : Nat := 3

/-- `EXIT_RECORDING_ERROR = 4` (meet-bot main.py line 35). -/
def EXIT_RECORDING_ERROR : Nat := 4

/-- `EXIT_UPLOAD_ERROR = 5` (meet-bot main.py line 36). -/
def EXIT_UPLOAD_ERROR : Nat := 5

/-- What can vary in a run of the meet-bot `main()` entry point
(meet-bot main.py lines 102-367), with the default configuration
`EARLY_RECORDING_MODE = false` and `DRY_RUN = false`.
`unexpectedError` models an exception raised between the `joining` status
write and the join call (browser startup) — it lands in the generic
`except` clause before any recording exists. -/
structure BotEnv where
  hasMeetingInfo : Bool
  joinEnvs : List AttemptEnv
  unexpectedError : Bool
  recordingProduced : Bool
  uploadOk : Bool
  openaiKeySet : Bool
  transcriptionRaises : Bool
  dbRecordOk : Bool
deriving Repr

/-- Embedding of the meet-bot `main()` control flow as the trace of store
operations plus the process exit code.
Missing `MEETING_URL`/`MEETING_ID` exits `EXIT_ERROR` before any write.
A failed join writes meeting `failed` and exits `EXIT_JOIN_FAILED`; a
missing recording file exits `EXIT_RECORDING_ERROR`; a failed upload
exits `EXIT_UPLOAD_ERROR`; any other exception exits `EXIT_ERROR`; a
transcription failure in the direct path is caught and logged only
(`"Don't fail the whole process, just log and continue"`), after which
the meeting is still marked `completed` and the process exits
`EXIT_SUCCESS`.
The `finally` block's best-effort emergency upload (reached when a
recording file exists but was not uploaded) never changes `exit_code` and
never writes a transcription or meeting status; it is outside the traces
modelled here. -/
def botMain (cfg : Config) (env : BotEnv) : List Op × Nat :=
  if env.hasMeetingInfo = false then ([], EXIT_ERROR)
  else if env.unexpectedError then
    ([Op.updateMeeting "joining", Op.updateMeeting "failed"], EXIT_ERROR)
  else if (join_meeting cfg env.joinEnvs).outcome ≠ JoinOutcome.joined then
    ([Op.updateMeeting "joining", Op.updateMeeting "failed"], EXIT_JOIN_FAILED)
  else if env.recordingProduced = false then
    ([Op.updateMeeting "joining", Op.updateMeeting "recording",
      Op.updateMeeting "failed"], EXIT_RECORDING_ERROR)
  else if env.uploadOk = false then
    ([Op.updateMeeting "joining", Op.updateMeeting "recording",
      Op.updateMeeting "processing", Op.updateMeeting "failed"], EXIT_UPLOAD_ERROR)
  else
    let transOps : List Op :=
      if env.openaiKeySet ∧ env.transcriptionRaises = false then
        [Op.storagePut "transcription"]
      else []
    let dbOps : List Op :=
      if env.dbRecordOk then
        [Op.insertRecording] ++
        (if env.openaiKeySet ∧ env.transcriptionRaises = false then []
         else [Op.enqueueTranscription])
      else []
    ([Op.updateMeeting "joining", Op.updateMeeting "recording",
      Op.updateMeeting "processing", Op.storagePut "recording",
      Op.updateMeeting "transcribing"] ++ transOps ++ dbOps ++
      [Op.updateMeeting "completed"], EXIT_SUCCESS)

/-- The configuration with every `os.getenv` default. -/
def defaultConfig : Config := {}

/-- A filesystem in which the expected output file was never created but
the recording directory holds a non-empty `other.mp4` (the situation the
directory-scan fallback of `Recorder.stop` is for). -/
def fsFallback : RecFs :=
  { size := fun p => if p = "other.mp4" then some 5 else none,
    latestMp4 := some ("other.mp4", 5) }

/-- A filesystem in which the expected output file exists non-empty. -/
def fsExpected : RecFs :=
  { size := fun p => if p = "rec.mp4" then some 10 else none,
    latestMp4 := none }

/-! # Theorems -/

/-! ## Join retry loop -/

/-- Each backoff delay recorded by the retry loop: the `i`-th delay
(0-based) slept by `joinMeetingGo` starting at attempt `a` is
`retryDelay cfg (a + i)`. -/
theorem joinMeetingGo_delays_get (cfg : Config) (l : List AttemptEnv) :
    ∀ a i, i < (joinMeetingGo cfg a l).delays.length →
      (joinMeetingGo cfg a l).delays.get? i = some (retryDelay cfg (a + i)) := by
  induction l with
  | nil =>
    intro a i h
    simp [joinMeetingGo] at h
  | cons e rest ih =>
    intro a i
    cases he : attempt_join_meeting e with
    | ok b =>
      cases b <;> simp [joinMeetingGo, joinAttemptStep, he]
    | error ex =>
      cases rest with
      | nil => simp [joinMeetingGo, joinAttemptStep, he]
      | cons r rs =>
        simp only [joinMeetingGo, joinAttemptStep, he]
        cases i with
        | zero => intro _; simp
        | succ n =>
          intro h
          simp only [List.get?_cons_succ]
          have hn : n < (joinMeetingGo cfg (a + 1) (r :: rs)).delays.length := by
            simpa using h
          rw [show a + (n + 1) = a + 1 + n by omega]
          exact ih (a + 1) n hn

/-- C8: for every configuration and attempt index `k` in `1..N-1`, the
delay slept before attempt `k+1` (the `(k-1)`-th element of the run's
delay list) equals `min(INITIAL_RETRY_DELAY * 2^(k-1), MAX_RETRY_DELAY)`;
consequently the delay sequence is monotonically non-decreasing in `k`
and capped at `MAX_RETRY_DELAY`. -/
theorem join_backoff_formula (cfg : Config) (envs : List AttemptEnv) (k : Nat)
    (hk : 1 ≤ k) (h : k - 1 < (join_meeting cfg envs).delays.length) :
    (join_meeting cfg envs).delays.get? (k - 1)
        = some (min (cfg.INITIAL_RETRY_DELAY * 2 ^ (k - 1)) cfg.MAX_RETRY_DELAY)
    ∧ retryDelay cfg k ≤ retryDelay cfg (k + 1)
    ∧ retryDelay cfg k ≤ cfg.MAX_RETRY_DELAY := by
  refine ⟨?_, ?_, ?_⟩
  · simp only [join_meeting] at h ⊢
    have hg := joinMeetingGo_delays_get cfg (envs.take cfg.MAX_JOIN_RETRIES) 1 (k - 1) h
    rw [hg]
    have hke : 1 + (k - 1) = k := by omega
    rw [hke]
    rfl
  · simp only [retryDelay]
    have h2 : cfg.INITIAL_RETRY_DELAY * 2 ^ (k - 1)
        ≤ cfg.INITIAL_RETRY_DELAY * 2 ^ (k + 1 - 1) := by
      apply Nat.mul_le_mul_left
      apply Nat.pow_le_pow_right (by norm_num)
      omega
    exact min_le_min h2 (le_refl _)
  · exact min_le_right _ _

/-- Witness for `join_backoff_formula`: the default configuration, a run
whose first two attempts time out, `k = 2`. -/
theorem join_backoff_formula_witness :
    (join_meeting defaultConfig
        [AttemptEnv.wait WaitEvent.timeoutEv, AttemptEnv.wait WaitEvent.timeoutEv,
         AttemptEnv.wait WaitEvent.admittedEv]).delays.get? (2 - 1)
        = some (min (defaultConfig.INITIAL_RETRY_DELAY * 2 ^ (2 - 1))
                    defaultConfig.MAX_RETRY_DELAY)
    ∧ retryDelay defaultConfig 2 ≤ retryDelay defaultConfig (2 + 1)
    ∧ retryDelay defaultConfig 2 ≤ defaultConfig.MAX_RETRY_DELAY :=
  join_backoff_formula defaultConfig
    [AttemptEnv.wait WaitEvent.timeoutEv, AttemptEnv.wait WaitEvent.timeoutEv,
     AttemptEnv.wait WaitEvent.admittedEv] 2 (by decide) (by decide)

/-- C1: a run (default config, 3 attempts) whose attempt 1 times out and
whose attempt 2 sees the permanent access-denied marker *during the
admission-wait polling loop* does NOT stop after 2 attempts: the
`Exception("Join failed: ...")` raised by `_wait_for_meeting_join` is
caught by the retry loop's generic `except Exception` handler, a backoff
delay is slept, and attempt 3 is started (here it times out too, so the
run ends `exhausted` after all 3 attempts).  By contrast, the same marker
found by the *initial page checks* of attempt 2 makes
`_attempt_join_meeting` return `False` and the run stops at 2 attempts
with a permanent failure, as the claim demands. -/
theorem permanent_marker_in_wait_is_retried :
    join_meeting defaultConfig
        [AttemptEnv.wait WaitEvent.timeoutEv,
         AttemptEnv.wait WaitEvent.permanentMarkerEv,
         AttemptEnv.wait WaitEvent.timeoutEv]
      = { outcome := JoinOutcome.exhausted, attemptsMade := 3, delays := [5, 10] }
    ∧ join_meeting defaultConfig
        [AttemptEnv.wait WaitEvent.timeoutEv,
         AttemptEnv.permOnLoad,
         AttemptEnv.wait WaitEvent.timeoutEv]
      = { outcome := JoinOutcome.permanentFailure, attemptsMade := 2, delays := [5] } := by
  decide

/-! ## Recorder -/

/-- C10: while a recording is in progress (`is_recording` true),
`Recorder.start` returns the current recording path unchanged, spawns no
second capture subprocess, and leaves every field of the recorder
unchanged. -/
theorem recorder_start_idempotent (s : RecorderState) (p : String) (now : Nat)
    (alive : Bool) (h : s.is_recording = true) :
    Recorder.start s p now alive
      = { state := s, result := Except.ok s.recording_path, spawned := false } := by
  simp [Recorder.start, h]

/-- Witness for `recorder_start_idempotent`. -/
theorem recorder_start_idempotent_witness :
    Recorder.start
        { hasProcess := true, recording_path := some "rec.mp4",
          is_recording := true, start_time := some 7 } "new.mp4" 9 true
      = { state := { hasProcess := true, recording_path := some "rec.mp4",
                     is_recording := true, start_time := some 7 },
          result := Except.ok (some "rec.mp4"), spawned := false } :=
  recorder_start_idempotent _ "new.mp4" 9 true rfl

/-- C4 counterexample: the expected output file is missing but the
directory scan finds a non-empty `other.mp4`.  The first stop returns the
fallback file; the fallback result is not stored in `recording_path`, so
the second stop (now `is_recording = false`) checks only the expected
path and returns `None` — the two calls do not return the same file
reference. -/
theorem recorder_stop_not_idempotent_after_fallback :
    (Recorder.stop
        { hasProcess := true, recording_path := some "expected.mp4",
          is_recording := true, start_time := some 0 } fsFallback).2
      = some "other.mp4"
    ∧ (Recorder.stop
        (Recorder.stop
          { hasProcess := true, recording_path := some "expected.mp4",
            is_recording := true, start_time := some 0 } fsFallback).1 fsFallback).2
      = none := by
  decide

/-- C4 amended: on a well-formed filesystem (the directory scan's file
exists with its reported size), whenever the first stop's result is
`None` or the expected recording path — i.e. it did not come from the
directory-scan fallback — a second stop without an intervening start
returns the same file reference (or `None`) and leaves the recorder state
unchanged; in particular a second stop after a completed stop returns the
recording file if it still exists non-empty at the expected path. -/
theorem recorder_stop_idempotent_amended (s : RecorderState) (fs : RecFs)
    (hfs : ∀ q m, fs.latestMp4 = some (q, m) → fs.size q = some m)
    (h : (Recorder.stop s fs).2 = none ∨ (Recorder.stop s fs).2 = s.recording_path) :
    Recorder.stop (Recorder.stop s fs).1 fs
      = ((Recorder.stop s fs).1, (Recorder.stop s fs).2) := by
  by_cases hb : s.is_recording = false ∨ s.hasProcess = false
  · have h1 : (Recorder.stop s fs).1 = s := by
      rcases hpath : s.recording_path with _ | p
      · simp [Recorder.stop, if_pos hb, hpath]
      · rcases hsz : fs.size p with _ | n
        · simp [Recorder.stop, if_pos hb, hpath, hsz]
        · by_cases hn : 0 < n <;>
            simp [Recorder.stop, if_pos hb, hpath, hsz, hn]
    rw [h1]
    rw [Prod.ext_iff]
    exact ⟨h1, rfl⟩
  · rcases hpath : s.recording_path with _ | p
    · simp [Recorder.stop, if_neg hb, hpath]
    · rcases hsz : fs.size p with _ | n
      · rcases hlat : fs.latestMp4 with _ | ⟨q, m⟩
        · simp [Recorder.stop, if_neg hb, hpath, hsz, hlat]
        · by_cases hm : 0 < m
          · exfalso
            have hr : (Recorder.stop s fs).2 = some q := by
              simp [Recorder.stop, if_neg hb, hpath, hsz, hlat, hm]
            rcases h with h | h
            · rw [hr] at h; exact Option.noConfusion h
            · rw [hr, hpath] at h
              have hq : q = p := by
                injection h
              have := hfs q m hlat
              rw [hq, hsz] at this
              exact Option.noConfusion this
          · simp [Recorder.stop, if_neg hb, hpath, hsz, hlat, hm]
      · by_cases hn : 0 < n
        · simp [Recorder.stop, if_neg hb, hpath, hsz, hn]
        · simp [Recorder.stop, if_neg hb, hpath, hsz, hn]

/-- Witness for `recorder_stop_idempotent_amended`: a completed stop whose
file exists non-empty at the expected path. -/
theorem recorder_stop_idempotent_amended_witness :
    Recorder.stop
        (Recorder.stop
          { hasProcess := true, recording_path := some "rec.mp4",
            is_recording := true, start_time := some 0 } fsExpected).1 fsExpected
      = ((Recorder.stop
            { hasProcess := true, recording_path := some "rec.mp4",
              is_recording := true, start_time := some 0 } fsExpected).1,
         (Recorder.stop
            { hasProcess := true, recording_path := some "rec.mp4",
              is_recording := true, start_time := some 0 } fsExpected).2) :=
  recorder_stop_idempotent_amended _ fsExpected
    (by intro q m hqm; simp [fsExpected] at hqm)
    (Or.inr (by decide))

/-! ## Caption scraper coalescing -/

/-- Looking up the key just written into the `_active_segments` dict. -/
theorem lookupActive_setActive (k : String) (v : CaptionSegment)
    (l : List (String × CaptionSegment)) :
    lookupActive k (setActive k v l) = some v := by
  induction l with
  | nil => simp [setActive, lookupActive]
  | cons p rest ih =>
    obtain ⟨k', v'⟩ := p
    by_cases hk : k' = k
    · simp [setActive, lookupActive, hk]
    · simp [setActive, lookupActive, hk, ih]

/-- C5 counterexample: two caption events from the same speaker where the
second text `"xyzw"` is longer than — but not a prefix-extension of, and
not a superset of — the open text `"abc"`.  The code still extends the
open segment (length check `len(text) > len(active.text)`), producing ONE
coalesced segment, whereas the claim requires the open segment to be
closed and a new one opened. -/
theorem caption_longer_unrelated_text_still_extends :
    get_segments
        (handle_caption
          (handle_caption { segments := [], active := [] } "Alice" "abc" 1000)
          "Alice" "xyzw" 3000)
      = [{ speaker := "Alice", text := "xyzw", start_ms := 1000, end_ms := 3000 }]
    ∧ ("abc".toList.isPrefixOf "xyzw".toList) = false
    ∧ strContains "xyzw" "abc" = false := by
  decide

/-- C5 amended: with an open segment for a (non-bot) speaker, the caption
event extends the open segment — text replaced, end time moved to the
event time, no segment closed — exactly when the new text is a
prefix-extension of the open text OR merely longer than it (even when
wholly unrelated); only otherwise is the open segment closed and a fresh
segment `[t, t+1000]` opened.  The growing-superset scenario therefore
still yields one coalesced segment with extended end time, not two. -/
theorem caption_coalescing_amended (st : ScraperState) (speaker text : String)
    (t : Int) (hbot : isBotSpeaker speaker = false) (a : CaptionSegment)
    (ha : lookupActive speaker st.active = some a) :
    (a.text.toList.isPrefixOf text.toList ∨ a.text.length < text.length →
       (handle_caption st speaker text t).segments = st.segments
       ∧ lookupActive speaker (handle_caption st speaker text t).active
           = some { a with text := text, end_ms := t })
    ∧ (¬(a.text.toList.isPrefixOf text.toList ∨ a.text.length < text.length) →
       (handle_caption st speaker text t).segments = st.segments ++ [a]
       ∧ lookupActive speaker (handle_caption st speaker text t).active
           = some { speaker := speaker, text := text,
                    start_ms := t, end_ms := t + 1000 }) := by
  constructor
  · intro hcond
    simp only [handle_caption, hbot, Bool.false_eq_true, if_false, ha]
    rw [if_pos hcond]
    exact ⟨rfl, lookupActive_setActive _ _ _⟩
  · intro hcond
    simp only [handle_caption, hbot, Bool.false_eq_true, if_false, ha]
    rw [if_neg hcond]
    exact ⟨rfl, lookupActive_setActive _ _ _⟩

/-- Witness for `caption_coalescing_amended`: scenario 4 of the spec — a
second event from the same speaker whose text `"hi there"` extends the
open text `"hi"`: one coalesced segment, end time moved from 1000 to
2500. -/
theorem caption_coalescing_amended_witness :
    (handle_caption
        { segments := [],
          active := [("Alice", { speaker := "Alice", text := "hi",
                                 start_ms := 0, end_ms := 1000 })] }
        "Alice" "hi there" 2500).segments = []
    ∧ lookupActive "Alice"
        (handle_caption
          { segments := [],
            active := [("Alice", { speaker := "Alice", text := "hi",
                                   start_ms := 0, end_ms := 1000 })] }
          "Alice" "hi there" 2500).active
      = some { speaker := "Alice", text := "hi there", start_ms := 0, end_ms := 2500 } :=
  (caption_coalescing_amended
      { segments := [],
        active := [("Alice", { speaker := "Alice", text := "hi",
                               start_ms := 0, end_ms := 1000 })] }
      "Alice" "hi there" 2500 (by decide)
      { speaker := "Alice", text := "hi", start_ms := 0, end_ms := 1000 }
      (by decide)).1 (Or.inl (by decide))

/-! ## Worker exit codes and transcription failure handling -/

/-- C6 counterexample: a run in which every join attempt times out — the
clearest "a timeout occurs" outcome — exits with `EXIT_JOIN_FAILED = 2`,
not `EXIT_TIMEOUT = 3`; `EXIT_TIMEOUT` is defined (main.py line 34) but
never assigned to `exit_code` anywhere in `main()`. -/
theorem exit_code_timeout_counterexample :
    (botMain defaultConfig
        { hasMeetingInfo := true,
          joinEnvs := [AttemptEnv.wait WaitEvent.timeoutEv,
                       AttemptEnv.wait WaitEvent.timeoutEv,
                       AttemptEnv.wait WaitEvent.timeoutEv],
          unexpectedError := false, recordingProduced := true, uploadOk := true,
          openaiKeySet := true, transcriptionRaises := false, dbRecordOk := true }).2
      = EXIT_JOIN_FAILED
    ∧ EXIT_JOIN_FAILED ≠ EXIT_TIMEOUT := by
  decide

/-- C6 amended: the worker process exits 0 on success, 1 on generic error
(including missing meeting configuration), 2 when the join fails
(including joins that fail by timing out), 4 on recording error and 5 on
upload error; the declared `EXIT_TIMEOUT = 3` is never produced by any
run. -/
theorem exit_codes_amended (cfg : Config) (env : BotEnv) :
    (botMain cfg env).2 =
      (if env.hasMeetingInfo = false then EXIT_ERROR
       else if env.unexpectedError then EXIT_ERROR
       else if (join_meeting cfg env.joinEnvs).outcome ≠ JoinOutcome.joined then
         EXIT_JOIN_FAILED
       else if env.recordingProduced = false then EXIT_RECORDING_ERROR
       else if env.uploadOk = false then EXIT_UPLOAD_ERROR
       else EXIT_SUCCESS)
    ∧ (botMain cfg env).2 ≠ EXIT_TIMEOUT := by
  unfold botMain
  constructor
  · split_ifs <;> rfl
  · split_ifs <;> decide

/-- C2 counterexample: in the bot's direct-transcription path a failing
transcription run does NOT mark any transcription record failed nor the
meeting failed: the exception is caught and logged
("Don't fail the whole process, just log and continue"), a transcription
job is enqueued for the worker instead, the meeting is marked `completed`
and the process exits 0. -/
theorem bot_transcription_failure_swallowed :
    (let env : BotEnv :=
      { hasMeetingInfo := true,
        joinEnvs := [AttemptEnv.wait WaitEvent.admittedEv],
        unexpectedError := false, recordingProduced := true, uploadOk := true,
        openaiKeySet := true, transcriptionRaises := true, dbRecordOk := true }
     (botMain defaultConfig env).1
        = [Op.updateMeeting "joining", Op.updateMeeting "recording",
           Op.updateMeeting "processing", Op.storagePut "recording",
           Op.updateMeeting "transcribing", Op.insertRecording,
           Op.enqueueTranscription, Op.updateMeeting "completed"]
      ∧ (botMain defaultConfig env).2 = EXIT_SUCCESS
      ∧ Op.updateMeeting "failed" ∉ (botMain defaultConfig env).1) := by
  decide

/-- C2 amended: at the standalone worker call site a failing transcription
run marks the transcription record failed and the meeting failed and
deletes nothing from object storage (only local temp files are removed);
at the bot's direct-transcription call site a transcription failure is
caught and logged, no transcription-record status is ever written, the
meeting still ends `completed` with exit code 0, and nothing is deleted
from object storage there either. -/
theorem transcription_failure_marks_failed_amended
    (wenv : WorkerJobEnv) (cfg : Config) (benv : BotEnv)
    (hw1 : wenv.recordingFound = true) (hw2 : wenv.transcriptionRaises = true)
    (hb1 : benv.hasMeetingInfo = true) (hb2 : benv.unexpectedError = false)
    (hb3 : (join_meeting cfg benv.joinEnvs).outcome = JoinOutcome.joined)
    (hb4 : benv.recordingProduced = true) (hb5 : benv.uploadOk = true)
    (hb6 : benv.transcriptionRaises = true) :
    process_job wenv
      = [Op.insertTranscription "processing", Op.updateTranscription "failed",
         Op.updateMeeting "failed", Op.unlinkLocalTemp]
    ∧ (∀ p, Op.storageDelete p ∉ process_job wenv)
    ∧ (botMain cfg benv).2 = EXIT_SUCCESS
    ∧ (botMain cfg benv).1.getLast? = some (Op.updateMeeting "completed")
    ∧ (∀ st, Op.updateTranscription st ∉ (botMain cfg benv).1)
    ∧ (∀ p, Op.storageDelete p ∉ (botMain cfg benv).1) := by
  have hpj : process_job wenv
      = [Op.insertTranscription "processing", Op.updateTranscription "failed",
         Op.updateMeeting "failed", Op.unlinkLocalTemp] := by
    simp [process_job, hw1, hw2]
  refine ⟨hpj, ?_, ?_, ?_, ?_, ?_⟩ <;>
    by_cases hdb : benv.dbRecordOk <;>
      simp [hpj, botMain, hb1, hb2, hb3, hb4, hb5, hb6, hdb]

/-- Witness for `transcription_failure_marks_failed_amended`. -/
theorem transcription_failure_marks_failed_amended_witness :
    process_job { recordingFound := true, transcriptionRaises := true, segCount := 0 }
      = [Op.insertTranscription "processing", Op.updateTranscription "failed",
         Op.updateMeeting "failed", Op.unlinkLocalTemp]
    ∧ (∀ p, Op.storageDelete p
        ∉ process_job { recordingFound := true, transcriptionRaises := true, segCount := 0 })
    ∧ (botMain defaultConfig
        { hasMeetingInfo := true,
          joinEnvs := [AttemptEnv.wait WaitEvent.admittedEv],
          unexpectedError := false, recordingProduced := true, uploadOk := true,
          openaiKeySet := true, transcriptionRaises := true, dbRecordOk := true }).2
        = EXIT_SUCCESS
    ∧ (botMain defaultConfig
        { hasMeetingInfo := true,
          joinEnvs := [AttemptEnv.wait WaitEvent.admittedEv],
          unexpectedError := false, recordingProduced := true, uploadOk := true,
          openaiKeySet := true, transcriptionRaises := true, dbRecordOk := true }).1.getLast?
        = some (Op.updateMeeting "completed")
    ∧ (∀ st, Op.updateTranscription st
        ∉ (botMain defaultConfig
            { hasMeetingInfo := true,
              joinEnvs := [AttemptEnv.wait WaitEvent.admittedEv],
              unexpectedError := false, recordingProduced := true, uploadOk := true,
              openaiKeySet := true, transcriptionRaises := true, dbRecordOk := true }).1)
    ∧ (∀ p, Op.storageDelete p
        ∉ (botMain defaultConfig
            { hasMeetingInfo := true,
              joinEnvs := [AttemptEnv.wait WaitEvent.admittedEv],
              unexpectedError := false, recordingProduced := true, uploadOk := true,
              openaiKeySet := true, transcriptionRaises := true, dbRecordOk := true }).1) :=
  transcription_failure_marks_failed_amended
    { recordingFound := true, transcriptionRaises := true, segCount := 0 }
    defaultConfig
    { hasMeetingInfo := true,
      joinEnvs := [AttemptEnv.wait WaitEvent.admittedEv],
      unexpectedError := false, recordingProduced := true, uploadOk := true,
      openaiKeySet := true, transcriptionRaises := true, dbRecordOk := true }
    rfl rfl rfl rfl (by decide) rfl rfl rfl

/-! ## Speaker attribution -/

/-- The caption loops at the two attribution call sites compute the same
thing (they are textually identical in the sources). -/
theorem transcriberScan_eq_workerScan (t : Int) (l : List CaptionSegment) :
    ∀ best, transcriberScan t best l = workerScan t best l := by
  induction l with
  | nil => intro best; rfl
  | cons seg rest ih =>
    intro best
    by_cases hhit : seg.start_ms ≤ t ∧ t ≤ seg.end_ms
    · simp only [transcriberScan, workerScan, if_pos hhit]
    · rcases best with _ | ⟨sp0, b⟩ <;>
        simp only [transcriberScan, workerScan, if_neg hhit] <;>
        split <;> exact ih _

/-- If no caption segment contains `t`, the caption loop never takes its
early direct-hit return. -/
theorem workerScan_no_hit (t : Int) (l : List CaptionSegment) :
    ∀ best, (∀ seg ∈ l, ¬(seg.start_ms ≤ t ∧ t ≤ seg.end_ms)) →
      ∃ b, workerScan t best l = ScanOutcome.best b := by
  induction l with
  | nil => intro best _; exact ⟨best, rfl⟩
  | cons seg rest ih =>
    intro best h
    have hseg := h seg (List.mem_cons_self _ _)
    have hrest : ∀ s ∈ rest, ¬(s.start_ms ≤ t ∧ t ≤ s.end_ms) :=
      fun s hs => h s (List.mem_cons_of_mem _ hs)
    rcases best with _ | ⟨sp0, b⟩ <;>
      simp only [workerScan, if_neg hseg] <;>
      split <;> exact ih _ hrest

/-- The caption loop's early return only fires on a direct hit: when it
returns a speaker eagerly, some caption segment contains `t` and carries
that speaker. -/
theorem workerScan_hit_spec (t : Int) (l : List CaptionSegment) :
    ∀ best s, workerScan t best l = ScanOutcome.hit s →
      ∃ seg ∈ l, (seg.start_ms ≤ t ∧ t ≤ seg.end_ms) ∧ seg.speaker = s := by
  induction l with
  | nil =>
    intro best s h
    exact absurd h (by simp [workerScan])
  | cons seg rest ih =>
    intro best s h
    by_cases hhit : seg.start_ms ≤ t ∧ t ≤ seg.end_ms
    · simp only [workerScan, if_pos hhit] at h
      refine ⟨seg, List.mem_cons_self _ _, hhit, ?_⟩
      injection h
    · rcases best with _ | ⟨sp0, b⟩ <;>
        simp only [workerScan, if_neg hhit] at h <;>
        split at h <;>
        · obtain ⟨s2, hs2, hp, hsp⟩ := ih _ s h
          exact ⟨s2, List.mem_cons_of_mem _ hs2, hp, hsp⟩

/-- The accumulator invariant of the caption loop's `best_match` /
`best_score` pair: when the loop ends with a best match, its distance is
strictly below the 5000 ms tolerance, it is realized by some scanned
segment (or was the initial accumulator), it is minimal among all scanned
segments' distances, and it never exceeds the initial accumulator's
score. -/
theorem workerScan_best_minimal (t : Int) (l : List CaptionSegment) :
    ∀ best b', workerScan t best l = ScanOutcome.best b' →
      (best = none ∨ ∃ sp0 d0, best = some (sp0, d0) ∧ d0 < 5000) →
      ∀ sp d, b' = some (sp, d) →
        d < 5000
        ∧ (best = some (sp, d)
            ∨ ∃ seg ∈ l, seg.speaker = sp ∧ captionDistance t seg = d)
        ∧ (∀ seg ∈ l, d ≤ captionDistance t seg)
        ∧ (∀ sp0 d0, best = some (sp0, d0) → d ≤ d0) := by
  induction l with
  | nil =>
    intro best b' hscan hinv sp d hb
    have hbb : best = b' := by simpa [workerScan] using hscan
    rw [← hbb] at hb
    rcases hinv with hinv | ⟨sp0, d0, heq, hd0⟩
    · rw [hinv] at hb; exact absurd hb (by simp)
    · have hd : d0 = d := by
        rw [heq] at hb
        simp only [Option.some.injEq, Prod.mk.injEq] at hb
        exact hb.2
      refine ⟨hd ▸ hd0, Or.inl hb, by simp, fun sp1 d1 h1 => ?_⟩
      rw [hb] at h1
      simp only [Option.some.injEq, Prod.mk.injEq] at h1
      exact le_of_eq h1.2
  | cons seg rest ih =>
    intro best b' hscan hinv sp d hb
    by_cases hhit : seg.start_ms ≤ t ∧ t ≤ seg.end_ms
    · simp only [workerScan, if_pos hhit] at hscan
      exact ScanOutcome.noConfusion hscan
    · rcases best with _ | ⟨sp0, d0⟩
      · simp only [workerScan, if_neg hhit] at hscan
        by_cases hlt : captionDistance t seg < 5000
        · rw [if_pos hlt] at hscan
          obtain ⟨h1, h2, h3, h4⟩ := ih _ b' hscan
              (Or.inr ⟨seg.speaker, captionDistance t seg, rfl, hlt⟩) sp d hb
          refine ⟨h1, ?_, ?_, by simp⟩
          · rcases h2 with h2 | ⟨s2, hs2, hsp, hdist⟩
            · simp only [Option.some.injEq, Prod.mk.injEq] at h2
              exact Or.inr ⟨seg, List.mem_cons_self _ _, h2.1, h2.2⟩
            · exact Or.inr ⟨s2, List.mem_cons_of_mem _ hs2, hsp, hdist⟩
          · intro s2 hs2
            rcases List.mem_cons.mp hs2 with rfl | hs2
            · exact h4 _ _ rfl
            · exact h3 _ hs2
        · rw [if_neg hlt] at hscan
          obtain ⟨h1, h2, h3, h4⟩ := ih _ b' hscan (Or.inl rfl) sp d hb
          refine ⟨h1, ?_, ?_, by simp⟩
          · rcases h2 with h2 | ⟨s2, hs2, hsp, hdist⟩
            · exact absurd h2 (by simp)
            · exact Or.inr ⟨s2, List.mem_cons_of_mem _ hs2, hsp, hdist⟩
          · intro s2 hs2
            rcases List.mem_cons.mp hs2 with rfl | hs2
            · omega
            · exact h3 _ hs2
      · have hd0 : d0 < 5000 := by
          rcases hinv with h | ⟨sp1, d1, heq, hlt1⟩
          · exact absurd h (by simp)
          · simp only [Option.some.injEq, Prod.mk.injEq] at heq
            rw [heq.2]; exact hlt1
        simp only [workerScan, if_neg hhit] at hscan
        by_cases hlt : captionDistance t seg < 5000 ∧ captionDistance t seg < d0
        · rw [if_pos hlt] at hscan
          obtain ⟨h1, h2, h3, h4⟩ := ih _ b' hscan
              (Or.inr ⟨seg.speaker, captionDistance t seg, rfl, hlt.1⟩) sp d hb
          have hdD : d ≤ captionDistance t seg := h4 _ _ rfl
          refine ⟨h1, ?_, ?_, ?_⟩
          · rcases h2 with h2 | ⟨s2, hs2, hsp, hdist⟩
            · simp only [Option.some.injEq, Prod.mk.injEq] at h2
              exact Or.inr ⟨seg, List.mem_cons_self _ _, h2.1, h2.2⟩
            · exact Or.inr ⟨s2, List.mem_cons_of_mem _ hs2, hsp, hdist⟩
          · intro s2 hs2
            rcases List.mem_cons.mp hs2 with rfl | hs2
            · exact hdD
            · exact h3 _ hs2
          · intro sp1 d1 h5
            simp only [Option.some.injEq, Prod.mk.injEq] at h5
            rw [← h5.2]
            exact le_trans hdD (le_of_lt hlt.2)
        · rw [if_neg hlt] at hscan
          obtain ⟨h1, h2, h3, h4⟩ :=
            ih _ b' hscan (Or.inr ⟨sp0, d0, rfl, hd0⟩) sp d hb
          refine ⟨h1, ?_, ?_, h4⟩
          · rcases h2 with h2 | ⟨s2, hs2, hsp, hdist⟩
            · exact Or.inl h2
            · exact Or.inr ⟨s2, List.mem_cons_of_mem _ hs2, hsp, hdist⟩
          · intro s2 hs2
            rcases List.mem_cons.mp hs2 with rfl | hs2
            · have hdle : d ≤ d0 := h4 _ _ rfl
              rcases not_and_or.mp hlt with h | h <;> omega
            · exact h3 _ hs2

/-- C3 counterexample.  First input: one caption ending 19 s before the
query time.  The claimed rule (and the worker implementation) leaves the
segment unattributed — the caption's end is far outside the 5000 ms
tolerance — but the transcriber call site returns its speaker, because
its fallback accepts any segment with `end_ms ≤ T + 5000`, with no lower
bound; the two call sites disagree.  Second input: a caption starting at
distance exactly 5000 ms.  The claimed rule accepts it
(`distance ≤ 5000`), but both implementations reject it (the code tests
`distance < 5000` strictly). -/
theorem attribution_rule_counterexample :
    (transcriber_get_speaker_at_time
        [{ speaker := "Alice", text := "hello", start_ms := 0, end_ms := 1000 }] 20000
        = some "Alice"
      ∧ attributor_get_speaker_at_time
        [{ speaker := "Alice", text := "hello", start_ms := 0, end_ms := 1000 }] 20000
        = none
      ∧ specAttributionRule
        [{ speaker := "Alice", text := "hello", start_ms := 0, end_ms := 1000 }] 20000
        = none)
    ∧ (transcriber_get_speaker_at_time
        [{ speaker := "Bob", text := "hi", start_ms := 10000, end_ms := 11000 }] 5000
        = none
      ∧ attributor_get_speaker_at_time
        [{ speaker := "Bob", text := "hi", start_ms := 10000, end_ms := 11000 }] 5000
        = none
      ∧ specAttributionRule
        [{ speaker := "Bob", text := "hi", start_ms := 10000, end_ms := 11000 }] 5000
        = some "Bob") := by
  decide

/-- C3 amended: a speaker returned by the worker call site comes either
from a direct hit (`start_ms ≤ T ≤ end_ms`) or from the caption segment
minimizing the distance to `T`, accepted only when that distance is
strictly below 5000 ms (not `≤`); direct hits and non-empty best matches
agree at both call sites; when there is no direct hit and the worker site
leaves the segment unattributed, the transcriber site instead falls back
to the most recent caption segment whose `end_ms ≤ T + 5000` — a
condition with no lower bound, so arbitrarily old captions can be
chosen — and only when that also fails is the segment left unattributed
there. -/
theorem attribution_amended (captions : List CaptionSegment) (t : Int) :
    (falsyMatch (attributor_get_speaker_at_time captions t) = false →
       transcriber_get_speaker_at_time captions t
         = attributor_get_speaker_at_time captions t)
    ∧ ((∀ seg ∈ captions, ¬(seg.start_ms ≤ t ∧ t ≤ seg.end_ms)) →
       attributor_get_speaker_at_time captions t = none →
       transcriber_get_speaker_at_time captions t
         = (captions.reverse.find? (fun seg => seg.end_ms ≤ t + 5000)).map
             (fun seg => seg.speaker))
    ∧ (∀ s, attributor_get_speaker_at_time captions t = some s →
       (∃ seg ∈ captions, (seg.start_ms ≤ t ∧ t ≤ seg.end_ms) ∧ seg.speaker = s)
       ∨ (∃ seg ∈ captions, seg.speaker = s ∧ captionDistance t seg < 5000
            ∧ ∀ seg2 ∈ captions, captionDistance t seg ≤ captionDistance t seg2)) := by
  refine ⟨?_, ?_, ?_⟩
  · intro hfal
    by_cases hemp : captions.isEmpty
    · exfalso
      simp [attributor_get_speaker_at_time, hemp, falsyMatch] at hfal
    · cases hscan : workerScan t none captions with
      | hit s =>
        have hts := transcriberScan_eq_workerScan t captions none
        simp [attributor_get_speaker_at_time, transcriber_get_speaker_at_time,
              hemp, hts, hscan]
      | best b =>
        have hts := transcriberScan_eq_workerScan t captions none
        have hfal2 : falsyMatch (b.map Prod.fst) = false := by
          simpa [attributor_get_speaker_at_time, hemp, hscan] using hfal
        simp [attributor_get_speaker_at_time, transcriber_get_speaker_at_time,
              hemp, hts, hscan, hfal2]
  · intro hnohit hnone
    by_cases hemp : captions.isEmpty
    · have hnil : captions = [] := by
        cases captions with
        | nil => rfl
        | cons a l => simp at hemp
      subst hnil
      simp [transcriber_get_speaker_at_time]
    · obtain ⟨b, hb⟩ := workerScan_no_hit t captions none hnohit
      have hbnone : b.map Prod.fst = none := by
        simpa [attributor_get_speaker_at_time, hemp, hb] using hnone
      have hts := transcriberScan_eq_workerScan t captions none
      cases hf : captions.reverse.find? (fun seg => seg.end_ms ≤ t + 5000) with
      | none =>
        simp [transcriber_get_speaker_at_time, hemp, hts, hb, hbnone,
              falsyMatch, hf]
      | some seg =>
        simp [transcriber_get_speaker_at_time, hemp, hts, hb, hbnone,
              falsyMatch, hf]
  · intro s hs
    by_cases hemp : captions.isEmpty
    · rw [attributor_get_speaker_at_time, if_pos (by simpa using hemp)] at hs
      exact absurd hs (by simp)
    · rw [attributor_get_speaker_at_time, if_neg (by simpa using hemp)] at hs
      revert hs
      cases hscan : workerScan t none captions with
      | hit s0 =>
        intro hs
        have hs0 : s0 = s := by simpa using hs
        subst hs0
        obtain ⟨seg, hseg, hh, hsp⟩ := workerScan_hit_spec t captions none s0 hscan
        exact Or.inl ⟨seg, hseg, hh, hsp⟩
      | best b =>
        intro hs
        rcases b with _ | ⟨sp1, d1⟩
        · exact absurd hs (by simp)
        · have hsp1 : sp1 = s := by simpa using hs
          subst hsp1
          obtain ⟨h1, h2, h3, _⟩ :=
            workerScan_best_minimal t captions none (some (sp1, d1)) hscan
              (Or.inl rfl) sp1 d1 rfl
          rcases h2 with h2 | ⟨seg, hseg, hsp, hdist⟩
          · exact absurd h2 (by simp)
          · refine Or.inr ⟨seg, hseg, hsp, ?_, ?_⟩
            · rw [hdist]; exact h1
            · intro seg2 hseg2
              rw [hdist]
              exact h3 seg2 hseg2

/-- Witness for `attribution_amended`: a direct hit (both sites agree and
the hit characterization fires) and the no-match case (the transcriber
falls back to the most recent `end_ms ≤ T + 5000` segment). -/
theorem attribution_amended_witness :
    transcriber_get_speaker_at_time
        [{ speaker := "Alice", text := "hello", start_ms := 0, end_ms := 1000 }] 500
      = attributor_get_speaker_at_time
        [{ speaker := "Alice", text := "hello", start_ms := 0, end_ms := 1000 }] 500
    ∧ transcriber_get_speaker_at_time
        [{ speaker := "Alice", text := "hello", start_ms := 0, end_ms := 1000 }] 20000
      = (([{ speaker := "Alice", text := "hello", start_ms := 0, end_ms := 1000 }] :
            List CaptionSegment).reverse.find?
            (fun seg => seg.end_ms ≤ 20000 + 5000)).map (fun seg => seg.speaker)
    ∧ ((∃ seg ∈ ([{ speaker := "Alice", text := "hello", start_ms := 0,
                    end_ms := 1000 }] : List CaptionSegment),
          (seg.start_ms ≤ 500 ∧ 500 ≤ seg.end_ms) ∧ seg.speaker = "Alice")
        ∨ (∃ seg ∈ ([{ speaker := "Alice", text := "hello", start_ms := 0,
                       end_ms := 1000 }] : List CaptionSegment),
          seg.speaker = "Alice" ∧ captionDistance 500 seg < 5000
          ∧ ∀ seg2 ∈ ([{ speaker := "Alice", text := "hello", start_ms := 0,
                         end_ms := 1000 }] : List CaptionSegment),
              captionDistance 500 seg ≤ captionDistance 500 seg2)) :=
  ⟨(attribution_amended
      [{ speaker := "Alice", text := "hello", start_ms := 0, end_ms := 1000 }] 500).1
      (by decide),
   (attribution_amended
      [{ speaker := "Alice", text := "hello", start_ms := 0, end_ms := 1000 }] 20000).2.1
      (by decide) (by decide),
   (attribution_amended
      [{ speaker := "Alice", text := "hello", start_ms := 0, end_ms := 1000 }] 500).2.2
      "Alice" (by decide)⟩

/-! ## Audio chunker -/

/-- The window list of end-to-end scenario 2: a 70-minute (4,200,000 ms),
30 MB (31,457,280 byte) input with the 20 MB chunk target yields
`chunk_duration_ms = 2,800,000` and exactly two windows. -/
theorem chunkWindows_scenario2 :
    chunkWindows 4200000 31457280 = [(0, 2800000), (2800000, 4200000)] := by
  have hcd : chunkDurationMs 4200000 31457280 = 2800000 := by decide
  unfold chunkWindows
  rw [hcd]
  rw [chunksGo]; norm_num
  rw [chunksGo]; norm_num
  rw [chunksGo]; norm_num

/-- C7 counterexample: the chunker does produce exactly 2 windows for a
70-minute, 30 MB file (and the file is indeed over the 25 MB ceiling),
but they are NOT two windows of approximately 35 minutes (2,100,000 ms)
each: the fixed-size greedy split gives a first window of 46⅔ minutes
(2,800,000 ms, more than 40 minutes) and a second of 23⅓ minutes
(1,400,000 ms, less than 30 minutes). -/
theorem chunker_scenario2_counterexample :
    chunkWindows 4200000 31457280 = [(0, 2800000), (2800000, 4200000)]
    ∧ MAX_FILE_SIZE_BYTES < 31457280
    ∧ 2400000 ≤ 2800000 - 0
    ∧ 4200000 - 2800000 ≤ 1800000 :=
  ⟨chunkWindows_scenario2, by decide, by decide, by decide⟩

/-- C7 amended: for the 70-minute, 30 MB input (over the 25 MB ceiling)
the chunker produces exactly 2 windows — `[0, 2800000)` of 46⅔ minutes
and `[2800000, 4200000)` of 23⅓ minutes, not ≈35 minutes each — both
windows are transcribed, and every segment returned for the second window
is shifted by the first window's duration (2,800,000 ms = 2800 s) before
merging; the texts are joined with a single space. -/
theorem chunker_scenario2_amended (engine : Nat × Nat → ChunkResult) :
    (transcribe_large_file 4200000 31457280 engine).segments
      = (engine (0, 2800000)).segments.map (shiftSeg (((0 : Nat) : ℚ) / 1000))
        ++ (engine (2800000, 4200000)).segments.map
             (shiftSeg (((2800000 : Nat) : ℚ) / 1000))
    ∧ (((2800000 : Nat) : ℚ) / 1000) = 2800
    ∧ (transcribe_large_file 4200000 31457280 engine).text
      = String.intercalate " "
          [(engine (0, 2800000)).text, (engine (2800000, 4200000)).text] := by
  refine ⟨?_, by norm_num, ?_⟩
  · show ((chunkWindows 4200000 31457280).map (fun c =>
        (engine c).segments.map (shiftSeg ((c.1 : ℚ) / 1000)))).flatten = _
    rw [chunkWindows_scenario2]
    simp
  · show String.intercalate " " ((chunkWindows 4200000 31457280).map
        (fun c => (engine c).text)) = _
    rw [chunkWindows_scenario2]
    rfl

/-- The computed chunk duration is at least the one-minute floor, hence
positive. -/
theorem chunkDurationMs_pos (total size : Nat) : 0 < chunkDurationMs total size :=
  lt_of_lt_of_le (by norm_num) (le_max_right _ _)

/-- First window produced by the loop. -/
theorem chunksGo_head (cd total start : Nat) (hcd : 0 < cd) (h : start < total) :
    (chunksGo cd total start).head? = some (start, min (start + cd) total) := by
  rw [chunksGo, dif_pos ⟨hcd, h⟩]
  rfl

/-- The loop emits at least one window when any audio remains. -/
theorem chunksGo_ne_nil (cd total start : Nat) (hcd : 0 < cd) (h : start < total) :
    chunksGo cd total start ≠ [] := by
  rw [chunksGo, dif_pos ⟨hcd, h⟩]
  simp

/-- Every window starts at or after the loop's starting offset, starts
before the total duration, and ends at `min(start + cd, total)`. -/
theorem chunksGo_mem (cd total : Nat) :
    ∀ start, ∀ w ∈ chunksGo cd total start,
      start ≤ w.1 ∧ w.1 < total ∧ w.2 = min (w.1 + cd) total := by
  intro start
  induction start using chunksGo.induct cd total with
  | case1 s hs ih =>
    intro w hw
    rw [chunksGo, dif_pos hs] at hw
    rcases List.mem_cons.mp hw with rfl | hw2
    · exact ⟨le_refl _, hs.2, rfl⟩
    · obtain ⟨h1, h2, h3⟩ := ih w hw2
      exact ⟨le_trans (by omega : s ≤ min (s + cd) total) h1, h2, h3⟩
  | case2 s hs =>
    intro w hw
    rw [chunksGo, dif_neg hs] at hw
    exact absurd hw (List.not_mem_nil _)

/-- Consecutive windows share their boundary: each window's end is the
next window's start. -/
theorem chunksGo_chain (cd total : Nat) :
    ∀ start, List.Chain' (fun a b => a.2 = b.1) (chunksGo cd total start) := by
  intro start
  induction start using chunksGo.induct cd total with
  | case1 s hs ih =>
    rw [chunksGo, dif_pos hs]
    rw [List.chain'_cons']
    refine ⟨?_, ih⟩
    intro y hy
    by_cases he : min (s + cd) total < total
    · rw [chunksGo_head cd total _ hs.1 he] at hy
      simp at hy
      rw [← hy]
    · rw [chunksGo, dif_neg (by omega)] at hy
      simp at hy
  | case2 s hs =>
    rw [chunksGo, dif_neg hs]
    exact List.chain'_nil

/-- `getLast?` of a cons cell, phrased through `Option.or`. -/
theorem getLastQ_cons {α : Type} (a : α) (l : List α) :
    (a :: l).getLast? = l.getLast?.or (some a) := by
  rw [show a :: l = [a] ++ l from rfl, List.getLast?_append]
  rfl

/-- The last window always ends exactly at the total duration. -/
theorem chunksGo_last (cd total : Nat) (hcd : 0 < cd) :
    ∀ start, start < total →
      (chunksGo cd total start).getLast?.map Prod.snd = some total := by
  intro start
  induction start using chunksGo.induct cd total with
  | case1 s hs ih =>
    intro hlt
    rw [chunksGo, dif_pos hs]
    by_cases he : min (s + cd) total < total
    · have htail := ih he
      rw [getLastQ_cons]
      rcases hlast : (chunksGo cd total (min (s + cd) total)).getLast? with _ | w
      · rw [hlast] at htail; simp at htail
      · rw [hlast] at htail
        simpa using htail
    · have he2 : min (s + cd) total = total := by omega
      rw [chunksGo, dif_neg (by omega)]
      simp [he2]
  | case2 s hs =>
    intro hlt
    exact absurd ⟨hcd, hlt⟩ hs

/-- An element of `getLast?` is an element of the list. -/
theorem mem_of_mem_getLastQ {α : Type} {l : List α} {x : α}
    (h : x ∈ l.getLast?) : x ∈ l := by
  obtain ⟨hne, rfl⟩ := List.mem_getLast?_eq_getLast h
  exact List.getLast_mem hne

/-- An element of `head?` is an element of the list. -/
theorem mem_of_mem_headQ {α : Type} {l : List α} {x : α}
    (h : x ∈ l.head?) : x ∈ l := by
  rw [List.eq_cons_of_mem_head? h]
  exact List.mem_cons_self _ _

/-- Start of a shifted segment. -/
theorem shiftSeg_start (o : ℚ) (s : TSeg) : (shiftSeg o s).start = s.start + o := rfl

/-- End of a shifted segment. -/
theorem shiftSeg_endTime (o : ℚ) (s : TSeg) : (shiftSeg o s).endTime = s.endTime + o := rfl

/-- Merge invariant of the chunked transcription: given per-window engine
results that are nonempty, time-ordered and contained in their window,
the merged (shifted, concatenated) segment list is time-ordered, every
merged segment lies within `[start/1000, total/1000]` seconds, and the
last merged segment ends within one chunk duration of the total. -/
theorem chunksGo_merge_spec (engine : Nat × Nat → ChunkResult) (cd total : Nat)
    (hcd : 0 < cd) :
    ∀ start, start < total →
      (∀ c ∈ chunksGo cd total start,
          (engine c).segments ≠ []
          ∧ List.Chain' (fun a b => a.start ≤ b.start) (engine c).segments
          ∧ ∀ s ∈ (engine c).segments,
              0 ≤ s.start ∧ s.start ≤ s.endTime
              ∧ s.endTime ≤ ((c.2 : ℚ) - (c.1 : ℚ)) / 1000) →
      (List.Chain' (fun a b => a.start ≤ b.start)
          ((chunksGo cd total start).map (fun c =>
            (engine c).segments.map (shiftSeg ((c.1 : ℚ) / 1000)))).flatten
       ∧ (∀ x ∈ ((chunksGo cd total start).map (fun c =>
            (engine c).segments.map (shiftSeg ((c.1 : ℚ) / 1000)))).flatten,
            (start : ℚ) / 1000 ≤ x.start ∧ x.start ≤ x.endTime
            ∧ x.endTime ≤ (total : ℚ) / 1000)
       ∧ ∃ lastSeg, (((chunksGo cd total start).map (fun c =>
            (engine c).segments.map (shiftSeg ((c.1 : ℚ) / 1000)))).flatten).getLast?
              = some lastSeg
            ∧ (total : ℚ) / 1000 - (cd : ℚ) / 1000 ≤ lastSeg.endTime) := by
  intro start
  induction start using chunksGo.induct cd total with
  | case1 s hs ih =>
    intro hlt hres
    rw [chunksGo, dif_pos hs] at hres ⊢
    simp only [List.map_cons, List.flatten_cons]
    obtain ⟨hne, hchain, hbounds⟩ := hres (s, min (s + cd) total) (List.mem_cons_self _ _)
    have hhead_mem : ∀ x ∈ (engine (s, min (s + cd) total)).segments.map
        (shiftSeg ((s : ℚ) / 1000)),
        (s : ℚ) / 1000 ≤ x.start ∧ x.start ≤ x.endTime
          ∧ x.endTime ≤ ((min (s + cd) total : Nat) : ℚ) / 1000 := by
      intro x hx
      obtain ⟨y, hy, rfl⟩ := List.mem_map.mp hx
      obtain ⟨hy0, hy1, hy2⟩ := hbounds y hy
      dsimp only at hy2
      simp only [shiftSeg_start, shiftSeg_endTime]
      have harith : (((min (s + cd) total : Nat) : ℚ) - (s : ℚ)) / 1000 + (s : ℚ) / 1000
          = ((min (s + cd) total : Nat) : ℚ) / 1000 := by ring
      exact ⟨by linarith, by linarith, by linarith⟩
    have hhead_chain : List.Chain' (fun a b => a.start ≤ b.start)
        ((engine (s, min (s + cd) total)).segments.map (shiftSeg ((s : ℚ) / 1000))) := by
      rw [List.chain'_map]
      refine hchain.imp ?_
      intro a b hab
      simp only [shiftSeg_start]
      linarith
    have hhead_ne : (engine (s, min (s + cd) total)).segments.map
        (shiftSeg ((s : ℚ) / 1000)) ≠ [] := by
      simpa using hne
    by_cases he : min (s + cd) total < total
    · obtain ⟨hrchain, hrmem, lastSeg, hrlast, hrbound⟩ :=
        ih he (fun c hc => hres c (List.mem_cons_of_mem _ hc))
      refine ⟨?_, ?_, ?_⟩
      · apply List.Chain'.append hhead_chain hrchain
        intro x hx y hy
        obtain ⟨hx1, hx2, hx3⟩ := hhead_mem x (mem_of_mem_getLastQ hx)
        obtain ⟨hy1, hy2, hy3⟩ := hrmem y (mem_of_mem_headQ hy)
        linarith
      · intro x hx
        rcases List.mem_append.mp hx with hx | hx
        · obtain ⟨h1, h2, h3⟩ := hhead_mem x hx
          refine ⟨h1, h2, ?_⟩
          have hle : ((min (s + cd) total : Nat) : ℚ) ≤ (total : ℚ) := by
            exact_mod_cast min_le_right (s + cd) total
          linarith
        · obtain ⟨h1, h2, h3⟩ := hrmem x hx
          refine ⟨?_, h2, h3⟩
          have hse : (s : ℚ) ≤ ((min (s + cd) total : Nat) : ℚ) := by
            have : s ≤ min (s + cd) total := by omega
            exact_mod_cast this
          linarith
      · refine ⟨lastSeg, ?_, hrbound⟩
        rw [List.getLast?_append, hrlast]
        rfl
    · have htail_nil : chunksGo cd total (min (s + cd) total) = [] := by
        rw [chunksGo, dif_neg (by omega)]
      rw [htail_nil]
      simp only [List.map_nil, List.flatten_nil, List.append_nil]
      have he2 : min (s + cd) total = total := by omega
      refine ⟨hhead_chain, ?_, ?_⟩
      · intro x hx
        obtain ⟨h1, h2, h3⟩ := hhead_mem x hx
        rw [he2] at h3
        exact ⟨h1, h2, h3⟩
      · obtain ⟨w, hw⟩ :=
          Option.isSome_iff_exists.mp (List.getLast?_isSome.mpr hhead_ne)
        refine ⟨w, hw, ?_⟩
        obtain ⟨h1, h2, h3⟩ := hhead_mem w (mem_of_mem_getLastQ (Option.mem_def.mpr hw))
        have htc : (total : ℚ) ≤ (s : ℚ) + (cd : ℚ) := by
          have : total ≤ s + cd := by omega
          exact_mod_cast this
        linarith
  | case2 s hs =>
    intro hlt
    exact absurd ⟨hcd, hlt⟩ hs

/-- C9: for every positive total duration and byte size above the 25 MB
ceiling, `chunk_duration_ms = max(target_bytes * total / size, 60000)`
(the exact-arithmetic form of `target_bytes / bytes_per_ms` with
`bytes_per_ms = size / total`); the windows partition `[0, total)` into
consecutive, non-overlapping, gap-free half-open windows: the list is
nonempty, its first window starts at 0, each window ends at
`min(start + chunk_duration, total)` (full-length except possibly the
last), consecutive windows share their boundary, and the last window ends
exactly at `total`.  Merging drops no chunk: the merged segment count is
the sum of the per-chunk counts.  Assuming each per-chunk result is
nonempty and time-ordered within its window, the reconstructed segment
list is sorted by start time and its last segment's end lies within one
chunk duration of the total duration. -/
theorem chunker_partition_and_merge (total size : Nat)
    (engine : Nat × Nat → ChunkResult)
    (htotal : 0 < total) (hsize : MAX_FILE_SIZE_BYTES < size)
    (hres : ∀ c ∈ chunkWindows total size,
        (engine c).segments ≠ []
        ∧ List.Chain' (fun a b => a.start ≤ b.start) (engine c).segments
        ∧ ∀ s ∈ (engine c).segments,
            0 ≤ s.start ∧ s.start ≤ s.endTime
            ∧ s.endTime ≤ ((c.2 : ℚ) - (c.1 : ℚ)) / 1000) :
    chunkDurationMs total size = max (TARGET_CHUNK_BYTES * total / size) 60000
    ∧ chunkWindows total size ≠ []
    ∧ (chunkWindows total size).head?.map Prod.fst = some 0
    ∧ (chunkWindows total size).getLast?.map Prod.snd = some total
    ∧ List.Chain' (fun a b => a.2 = b.1) (chunkWindows total size)
    ∧ (∀ w ∈ chunkWindows total size,
        w.1 < w.2 ∧ w.2 = min (w.1 + chunkDurationMs total size) total)
    ∧ (transcribe_large_file total size engine).segments.length
        = ((chunkWindows total size).map (fun c => (engine c).segments.length)).sum
    ∧ List.Chain' (fun a b => a.start ≤ b.start)
        (transcribe_large_file total size engine).segments
    ∧ ∃ lastSeg, (transcribe_large_file total size engine).segments.getLast?
          = some lastSeg
        ∧ (total : ℚ) / 1000 - (chunkDurationMs total size : ℚ) / 1000
            ≤ lastSeg.endTime
        ∧ lastSeg.endTime ≤ (total : ℚ) / 1000 := by
  have hcd : 0 < chunkDurationMs total size := chunkDurationMs_pos total size
  have hmerge := chunksGo_merge_spec engine (chunkDurationMs total size) total hcd
      0 htotal hres
  refine ⟨rfl, ?_, ?_, ?_, ?_, ?_, ?_, ?_, ?_⟩
  · exact chunksGo_ne_nil _ _ _ hcd htotal
  · show (chunksGo (chunkDurationMs total size) total 0).head?.map Prod.fst = some 0
    rw [chunksGo_head _ _ _ hcd htotal]
    rfl
  · exact chunksGo_last _ _ hcd 0 htotal
  · exact chunksGo_chain _ _ 0
  · intro w hw
    obtain ⟨h1, h2, h3⟩ := chunksGo_mem (chunkDurationMs total size) total 0 w hw
    refine ⟨?_, h3⟩
    rw [h3]
    omega
  · show ((chunkWindows total size).map (fun c =>
        (engine c).segments.map (shiftSeg ((c.1 : ℚ) / 1000)))).flatten.length = _
    rw [List.length_flatten]
    simp [Function.comp_def, List.length_map]
  · exact hmerge.1
  · obtain ⟨lastSeg, hl, hlb⟩ := hmerge.2.2
    refine ⟨lastSeg, hl, hlb, ?_⟩
    exact (hmerge.2.1 lastSeg (mem_of_mem_getLastQ (Option.mem_def.mpr hl))).2.2

/-- Witness for `chunker_partition_and_merge`: the scenario-2 numbers with
a one-segment-per-window engine. -/
theorem chunker_partition_and_merge_witness :
    chunkWindows 4200000 31457280 ≠ []
    ∧ (chunkWindows 4200000 31457280).getLast?.map Prod.snd = some 4200000 := by
  have h := chunker_partition_and_merge 4200000 31457280
      (fun _ => { text := "t", segments := [{ start := 0, endTime := 0, text := "x" }] })
      (by decide) (by decide)
      (by
        intro c hc
        rw [chunkWindows_scenario2] at hc
        simp only [List.mem_cons, List.not_mem_nil, or_false] at hc
        refine ⟨by simp, by simp, ?_⟩
        intro s hs
        simp only [List.mem_singleton] at hs
        subst hs
        rcases hc with rfl | rfl <;> norm_num)
  exact ⟨h.2.1, h.2.2.2.1⟩

end MeetBot
